import Mathlib

/-!
Verification development for the Meow CLI terminal agent.

The repository is a single-file Node.js program (in three close variants:
`src/index.js` twice and `src/unnamed/part_000`). This file gives a shallow
embedding of the parts of the program that the specification's claims are
about: the JSON argument decoding used by the tool executor, the tool
dispatch table, the `tool_chain` sequential executor, the `read_file` and
`write_file` handlers' observable behaviour, the session store
(`loadHistoryState`, `/chat new|use|delete`, `/clear`, `/export`,
`/import`), the per-turn agent loop with its error recovery, and the
autopilot continuation loop (`runAutopilot`).

Effectful boundaries (filesystem contents, the remote model's responses,
the shell) are passed in as explicit inputs or oracle functions, so every
definition is executable; the control flow and data manipulation are
translated from the JavaScript source.
-/

namespace Meow

/-! ## JSON values and a model of `JSON.parse`

Tool-call arguments arrive as a textual JSON encoding and are decoded with
the JavaScript built-in `JSON.parse` inside a `try/catch`
(`src/index.js:520`).  `JSON.parse` is a host built-in, so it is modelled
here by a total, fuelled recursive-descent reader returning `Option Json`:
`none` models the exception path.  Number syntax is kept as the raw token
(no claim depends on numeric values), and number validation is slightly
more permissive than the built-in, which no claim depends on either. -/

inductive Json where
  | null : Json
  | bool (b : Bool) : Json
  | num (raw : String) : Json
  | str (s : String) : Json
  | arr (items : List Json) : Json
  | obj (fields : List (String × Json)) : Json

/-- Double-quote character, written via its code point. -/
def jsQuote : Char := Char.ofNat 34

/-- Backslash character, written via its code point. -/
def jsBackslash : Char := Char.ofNat 92

/-- Opening curly bracket, written via its code point. -/
def jsLBrace : Char := Char.ofNat 123

/-- Closing curly bracket, written via its code point. -/
def jsRBrace : Char := Char.ofNat 125

/-- JSON insignificant whitespace. -/
def isJsonWs (c : Char) : Bool :=
  c = ' ' || c = Char.ofNat 9 || c = Char.ofNat 10 || c = Char.ofNat 13

/-- Drop leading JSON whitespace. -/
def skipWs : List Char → List Char
  | [] => []
  | c :: cs => if isJsonWs c then skipWs cs else c :: cs

/-- Value of one hexadecimal digit. -/
def hexVal (c : Char) : Option Nat :=
  if '0' ≤ c ∧ c ≤ '9' then some (c.toNat - 48)
  else if 'a' ≤ c ∧ c ≤ 'f' then some (c.toNat - 87)
  else if 'A' ≤ c ∧ c ≤ 'F' then some (c.toNat - 55)
  else none

/-- Single-character JSON escapes (everything but the hex form). -/
def escChar (c : Char) : Option Char :=
  if c = jsQuote then some jsQuote
  else if c = jsBackslash then some jsBackslash
  else if c = '/' then some '/'
  else if c = 'b' then some (Char.ofNat 8)
  else if c = 'f' then some (Char.ofNat 12)
  else if c = 'n' then some (Char.ofNat 10)
  else if c = 'r' then some (Char.ofNat 13)
  else if c = 't' then some (Char.ofNat 9)
  else none

/-- Read the body of a JSON string after its opening quote; returns the
decoded characters and the remaining input. -/
def parseStrChars : Nat → List Char → Option (List Char × List Char)
  | 0, _ => none
  | _ + 1, [] => none
  | fuel + 1, c :: cs =>
    if c = jsQuote then some ([], cs)
    else if c = jsBackslash then
      match cs with
      | [] => none
      | e :: cs2 =>
        if e = 'u' then
          match cs2 with
          | h1 :: h2 :: h3 :: h4 :: cs3 =>
            match hexVal h1, hexVal h2, hexVal h3, hexVal h4 with
            | some a, some b, some c3, some d =>
              match parseStrChars fuel cs3 with
              | some (rest, rem) =>
                some (Char.ofNat (((a * 16 + b) * 16 + c3) * 16 + d) :: rest, rem)
              | none => none
            | _, _, _, _ => none
          | _ => none
        else
          match escChar e with
          | some d =>
            match parseStrChars fuel cs2 with
            | some (rest, rem) => some (d :: rest, rem)
            | none => none
          | none => none
    else
      match parseStrChars fuel cs with
      | some (rest, rem) => some (c :: rest, rem)
      | none => none

/-- Digit test for number tokens. -/
def isDigitCh (c : Char) : Bool := '0' ≤ c && c ≤ '9'

/-- Read a JSON number token starting at the current position, returning
the raw token and the rest. -/
def parseNumTok (l : List Char) : Option (List Char × List Char) :=
  let (sign, l1) :=
    match l with
    | '-' :: rest => (['-'], rest)
    | _ => (([] : List Char), l)
  match l1.span isDigitCh with
  | ([], _) => none
  | (ds, rest) =>
    let (frac, rest2) :=
      match rest with
      | '.' :: r =>
        match r.span isDigitCh with
        | ([], _) => (([] : List Char), rest)
        | (fs, r2) => ('.' :: fs, r2)
      | _ => (([] : List Char), rest)
    let (ex, rest3) :=
      match rest2 with
      | e :: r =>
        if e = 'e' ∨ e = 'E' then
          let (sgn, r1) :=
            match r with
            | s :: r2 => if s = '+' ∨ s = '-' then ([s], r2) else (([] : List Char), r)
            | [] => (([] : List Char), r)
          match r1.span isDigitCh with
          | ([], _) => (([] : List Char), rest2)
          | (es, r3) => (e :: (sgn ++ es), r3)
        else (([] : List Char), rest2)
      | [] => (([] : List Char), rest2)
    some (sign ++ ds ++ frac ++ ex, rest3)

mutual

/-- Read one JSON value. -/
def parseVal : Nat → List Char → Option (Json × List Char)
  | 0, _ => none
  | fuel + 1, l =>
    match skipWs l with
    | [] => none
    | c :: cs =>
      if c = jsQuote then
        match parseStrChars fuel cs with
        | some (chars, rest) => some (.str (String.mk chars), rest)
        | none => none
      else if c = jsLBrace then
        match skipWs cs with
        | c2 :: cs2 =>
          if c2 = jsRBrace then some (.obj [], cs2)
          else
            match parseFields fuel (c2 :: cs2) with
            | some (fs, rest) => some (.obj fs, rest)
            | none => none
        | [] => none
      else if c = '[' then
        match skipWs cs with
        | ']' :: cs2 => some (.arr [], cs2)
        | l2 =>
          match parseItems fuel l2 with
          | some (vs, rest) => some (.arr vs, rest)
          | none => none
      else if List.isPrefixOf ['t', 'r', 'u', 'e'] (c :: cs) then
        some (.bool true, (c :: cs).drop 4)
      else if List.isPrefixOf ['f', 'a', 'l', 's', 'e'] (c :: cs) then
        some (.bool false, (c :: cs).drop 5)
      else if List.isPrefixOf ['n', 'u', 'l', 'l'] (c :: cs) then
        some (.null, (c :: cs).drop 4)
      else
        match parseNumTok (c :: cs) with
        | some (tok, rest) => some (.num (String.mk tok), rest)
        | none => none

/-- Read the members of a JSON object after the opening bracket (at least
one member). -/
def parseFields : Nat → List Char → Option (List (String × Json) × List Char)
  | 0, _ => none
  | fuel + 1, l =>
    match skipWs l with
    | c :: cs =>
      if c = jsQuote then
        match parseStrChars fuel cs with
        | some (keyChars, rest) =>
          match skipWs rest with
          | ':' :: rest2 =>
            match parseVal fuel rest2 with
            | some (v, rest3) =>
              match skipWs rest3 with
              | ',' :: rest4 =>
                match parseFields fuel rest4 with
                | some (fs, rest5) => some ((String.mk keyChars, v) :: fs, rest5)
                | none => none
              | c2 :: rest4 =>
                if c2 = jsRBrace then some ([(String.mk keyChars, v)], rest4) else none
              | [] => none
            | none => none
          | _ => none
        | none => none
      else none
    | [] => none

/-- Read the elements of a JSON array after the opening bracket (at least
one element). -/
def parseItems : Nat → List Char → Option (List Json × List Char)
  | 0, _ => none
  | fuel + 1, l =>
    match parseVal fuel l with
    | some (v, rest) =>
      match skipWs rest with
      | ',' :: rest2 =>
        match parseItems fuel rest2 with
        | some (vs, rest3) => some (v :: vs, rest3)
        | none => none
      | ']' :: rest2 => some ([v], rest2)
      | _ => none
    | none => none

end

/-- Model of `JSON.parse`: `none` is the exception path.  Trailing
non-whitespace input is an error, as in the built-in. -/
def jsonParse (s : String) : Option Json :=
  match parseVal (2 * s.length + 2) s.data with
  | some (v, rest) => if skipWs rest = [] then some v else none
  | none => none

/-! ## Messages and tool calls

The conversation data model (`spec.md` §3).  A tool call as delivered by
the remote model is `{id, type:"function", function:{name, arguments}}`
where `arguments` is the textual JSON encoding; messages carry a role,
nullable content, an optional tool-call list (assistant messages) and an
optional `tool_call_id` (tool messages).  Absent and `null` fields are
both modelled by `none`/`[]`. -/

structure ToolCall where
  id : String
  name : String
  arguments : String
deriving DecidableEq

structure Message where
  role : String
  content : Option String
  tool_calls : List ToolCall
  tool_call_id : Option String
deriving DecidableEq

/-- The user message appended at the start of a round
(`src/index.js:1005`). -/
def userMsg (input : String) : Message :=
  { role := "user", content := some input, tool_calls := [], tool_call_id := none }

/-! ## Tool dispatch (`executeTool`, `src/index.js:458`)

`executeTool` strips a single leading `proxy_` from the name
(`(name || "").replace(/^proxy_/, "")`) and switches on the result; the
`default` arm reports the original name.  Only the handler selection is
modelled here; the handlers themselves do I/O and are treated as oracles
where the claims need their results. -/

inductive ToolHandler where
  | listDirH
  | readFileH
  | writeFileH
  | runShellH
  | httpRequestH
  | webSearchH
  | toolChainH
  | unknownH (raw : String)
deriving DecidableEq

/-- Model of `(name || "").replace(/^proxy_/, "")`: the regex is anchored
and `replace` rewrites at most one occurrence, so the name loses one
leading `proxy_` when it has one. -/
def stripProxy (name : String) : String :=
  if List.isPrefixOf ("proxy_" : String).data name.data then
    String.mk (name.data.drop 6)
  else name

/-- The fixed tool registry names (`TOOLS`, `src/index.js:236`). -/
def knownTools : List String :=
  ["list_dir", "read_file", "write_file", "run_shell", "http_request",
   "web_search", "tool_chain"]

/-- Handler selection of `executeTool` (`src/index.js:458`). -/
def executeToolDispatch (name : String) : ToolHandler :=
  let cleanName := stripProxy name
  if cleanName = "list_dir" then .listDirH
  else if cleanName = "read_file" then .readFileH
  else if cleanName = "write_file" then .writeFileH
  else if cleanName = "run_shell" then .runShellH
  else if cleanName = "http_request" then .httpRequestH
  else if cleanName = "web_search" then .webSearchH
  else if cleanName = "tool_chain" then .toolChainH
  else .unknownH name

/-! ## Argument decoding and tool execution (`handleTools`, `src/index.js:506`)

`handleTools` pushes the assistant message, then for each call decodes
`call.function.arguments` with `JSON.parse` inside a `try/catch` that
degrades to `{}`, runs the tool, and pushes a tool-role message with the
textual result.  The tool handlers are an oracle `exec` from name and
decoded arguments to the result string. -/

/-- Decoded argument mapping of one call: a parse failure degrades to the
empty mapping (`try/catch` at `src/index.js:520`); a parse result that is
not an object also contributes no usable named arguments. -/
def decodeArgs (s : String) : List (String × Json) :=
  match jsonParse s with
  | some (.obj fields) => fields
  | some _ => []
  | none => []

/-- The tool-role message pushed for one call (`src/index.js:524`). -/
def toolResultMsg (exec : String → List (String × Json) → String)
    (c : ToolCall) : Message :=
  { role := "tool", content := some (exec c.name (decodeArgs c.arguments)),
    tool_calls := [], tool_call_id := some c.id }

/-- `handleTools(msg, messages, cfg)`: returns the updated conversation
and whether a tool round happened (the `return false`/`return true` of
the source). -/
def handleTools (exec : String → List (String × Json) → String)
    (msg : Message) (messages : List Message) : List Message × Bool :=
  if msg.tool_calls.isEmpty then (messages, false)
  else ((messages ++ [msg]) ++ msg.tool_calls.map (toolResultMsg exec), true)

/-! ## One user turn of the agent loop (`src/index.js:1005-1062`)

The loop appends the user message, then repeatedly calls the API; a
response with tool calls extends the conversation and loops, a plain
response is appended and the turn succeeds.  Any exception from `callApi`
(missing key, HTTP error, network error) reaches the `catch`, which does
a single `messages.pop()`.  The API is modelled by a script of responses:
`some m` is a returned assistant message, `none` a thrown error.  The
result is `none` if the script runs out while the loop still needs a
response, otherwise `some (ok, conversation)` where `ok` says whether the
turn completed normally (only then is the session persisted,
`src/index.js:1052-1055`). -/

def agentRounds (exec : String → List (String × Json) → String) :
    List (Option Message) → List Message → Option (Bool × List Message)
  | [], _ => none
  | none :: _, messages => some (false, messages.dropLast)
  | some m :: script, messages =>
    let r := handleTools exec m messages
    if r.2 then agentRounds exec script r.1
    else some (true, r.1 ++ [m])

/-- A whole user turn: push the user message, then run the rounds. -/
def processTurn (exec : String → List (String × Json) → String)
    (script : List (Option Message)) (messages : List Message)
    (input : String) : Option (Bool × List Message) :=
  agentRounds exec script (messages ++ [userMsg input])

/-! ## `read_file` (`src/index.js:342-352`)

The filesystem outcome is an explicit input: the path does not name a
regular file, reading raised an error, or reading produced the content.
JavaScript string lengths (UTF-16 units) are abstracted to character
counts. -/

inductive FsRead where
  | notFound (resolvedPath : String)
  | readError (errMsg : String)
  | content (data : String)

/-- `readFile(p)` after resolving the path and reading. -/
def readFile : FsRead → String
  | .notFound p => "❌ File not found: " ++ p
  | .readError m => "❌ Read error: " ++ m
  | .content data =>
    if 50000 < data.length then
      data.take 50000 ++ "\n...[TRUNCATED: " ++ toString data.length ++ " bytes]..."
    else data

/-! ## `write_file` confirmation gating (`src/index.js:354-372`)

`writeFile` builds `diff = createTwoFilesPatch(file, file, old, content,
"Old", "New")` with the external `diff` package and prompts iff
`diff.trim() && diff.length > 100`, else prompts for creation iff the
file does not exist.  `diff.trim()` is truthy exactly when the patch
contains a non-whitespace character, which is how the first conjunct is
modelled. -/

inductive WritePrompt where
  | confirmWrite
  | confirmCreate
  | noPrompt
deriving DecidableEq

/-- Whitespace removed by `String.prototype.trim` (the characters that
can occur in a unified patch). -/
def isTrimWs (c : Char) : Bool :=
  c = ' ' || c = Char.ofNat 9 || c = Char.ofNat 10 ||
  c = Char.ofNat 13 || c = Char.ofNat 11 || c = Char.ofNat 12

/-- Truthiness of `diff.trim()`: some non-whitespace character exists. -/
def hasNonWs (s : String) : Bool := s.data.any (fun c => !(isTrimWs c))

/-- Which confirmation, if any, `writeFile` requests, as a function of
the computed patch text and of whether the file exists. -/
def writeFileGate (diff : String) (fileExists : Bool) : WritePrompt :=
  if hasNonWs diff && decide (100 < diff.length) then .confirmWrite
  else if !fileExists then .confirmCreate
  else .noPrompt

/-- The 67-character separator line `formatPatch` emits below the
`Index:` line. -/
def patchSep : String := String.mk (List.replicate 67 '=')

/-- Modelled from the external `diff` package: `createTwoFilesPatch(file,
file, old, old, "Old", "New")` on identical contents produces no hunks,
so `formatPatch` returns only the header: an `Index:` line (old and new
file names are equal), the 67-character `=` separator, and the
`---`/`+++` lines with the `Old`/`New` headers, each line
newline-terminated. -/
def identicalPatch (file : String) : String :=
  "Index: " ++ file ++ "\n" ++ patchSep ++ "\n--- " ++
  file ++ "\tOld\n+++ " ++ file ++ "\tNew\n"

/-- The confirmation behaviour of `writeFile` when the new content equals
the existing content `old` (so the computed patch is `identicalPatch`). -/
def writeFileIdenticalGate (file : String) (fileExists : Bool) : WritePrompt :=
  writeFileGate (identicalPatch file) fileExists

/-! ## `tool_chain` (`src/index.js:445-456`)

`toolChain(steps, cfg)` rejects a missing or empty list with an error
string; otherwise it runs every step in order through `executeTool`
(modelled by the oracle `exec`), collecting `{step: i+1, tool, result}`
objects, one per step, with no early exit.  The final `JSON.stringify`
presentation layer is not modelled; the result is either the error string
or the entry list itself. -/

structure ChainStep where
  tool : String
  args : List (String × Json)

structure ChainEntry where
  step : Nat
  tool : String
  result : String
deriving DecidableEq

inductive ChainOut where
  | error (msg : String)
  | ok (entries : List ChainEntry)

/-- The `for` loop of `toolChain`, with `i` the current index. -/
def toolChainLoop (exec : String → List (String × Json) → String) :
    List ChainStep → Nat → List ChainEntry
  | [], _ => []
  | s :: rest, i =>
    { step := i + 1, tool := s.tool, result := exec s.tool s.args } ::
      toolChainLoop exec rest (i + 1)

/-- `toolChain(steps, cfg)`. -/
def toolChain (exec : String → List (String × Json) → String)
    (steps : List ChainStep) : ChainOut :=
  if steps.isEmpty then .error "❌ Error: steps empty"
  else .ok (toolChainLoop exec steps 0)

/-! ## The session store (`src/index.js:271-284, 804-870, 962-990`)

`historyState` is a plain object `{current, chats}`; `chats` maps chat
names to message arrays.  It is modelled as an association list in key
insertion order, which is the enumeration order of `Object.keys` for the
string keys this program creates.  `current` is `Option String` because a
verbatim `/import` can install an object whose `current` field is absent
(`none` also models a JavaScript `null`/missing value). -/

structure Store where
  current : Option String
  chats : List (String × List Message)
deriving DecidableEq

/-- `chats[name]` lookup. -/
def lookupChat (chats : List (String × List Message)) (name : String) :
    Option (List Message) :=
  match chats with
  | [] => none
  | (k, v) :: rest => if k = name then some v else lookupChat rest name

/-- `chats[name] = v`: update in place if the key exists, else append the
key at the end, as JavaScript property assignment does. -/
def setChat (chats : List (String × List Message)) (name : String)
    (v : List Message) : List (String × List Message) :=
  match chats with
  | [] => [(name, v)]
  | (k, w) :: rest =>
    if k = name then (k, v) :: rest else (k, w) :: setChat rest name v

/-- `delete chats[name]` (keys are unique, so removing every binding of
the name is the same as removing the single one). -/
def removeChat : List (String × List Message) → String →
    List (String × List Message)
  | [], _ => []
  | (k, v) :: rest, name =>
    if k = name then removeChat rest name else (k, v) :: removeChat rest name

/-- `Object.keys(chats)`. -/
def chatKeys (chats : List (String × List Message)) : List String :=
  chats.map (fun p => p.1)

/-- JavaScript `x || d` for a possibly-absent string: absent, `null` and
the empty string are falsy. -/
def jsOrStr (o : Option String) (d : String) : String :=
  match o with
  | none => d
  | some s => if s = "" then d else s

/-- The recurring idiom `if (!chats[k]) chats[k] = []` (an existing array
is truthy even when empty, so only an absent key is created). -/
def ensureChat (chats : List (String × List Message)) (k : String) :
    List (String × List Message) :=
  if (lookupChat chats k).isSome then chats else chats ++ [(k, [])]

/-- The shapes the persisted history file can parse to
(`loadHistoryState`, `src/index.js:271`): a failed/missing read or a
non-object value (the `fallback`), a legacy bare message array, or an
object whose `current` and `chats` fields may each be absent or
malformed (`none`). -/
inductive RawHist where
  | fallback
  | legacyArr (msgs : List Message)
  | obj (current : Option String) (chats : Option (List (String × List Message)))

/-- `loadHistoryState()` (`src/index.js:271-282`). -/
def loadHistoryState : RawHist → Store
  | .fallback => ⟨some "default", [("default", [])]⟩
  | .legacyArr msgs => ⟨some "default", [("default", msgs)]⟩
  | .obj cur chs =>
    let chats := chs.getD []
    let current := jsOrStr cur "default"
    ⟨some current, ensureChat chats current⟩

/-- First free `chat-i` name (`makeChatName`, `src/index.js:565`); the
fuel bound `chats.length + 1` suffices because the loop scans at most one
name per existing key before finding a free one. -/
def makeChatNameAux (chats : List (String × List Message)) :
    Nat → Nat → String
  | 0, i => "chat-" ++ toString i
  | fuel + 1, i =>
    if (lookupChat chats ("chat-" ++ toString i)).isSome then
      makeChatNameAux chats fuel (i + 1)
    else "chat-" ++ toString i

def makeChatName (s : Store) : String :=
  makeChatNameAux s.chats (s.chats.length + 1) 1

/-- `/chat new [name]` (`src/index.js:821-833`): an empty `name` argument
is falsy, so a fresh name is generated; an existing name is an error and
leaves the store unchanged. -/
def chatNew (s : Store) (name : String) : Store :=
  let newName := if name = "" then makeChatName s else name
  if (lookupChat s.chats newName).isSome then s
  else ⟨some newName, s.chats ++ [(newName, [])]⟩

/-- `/chat use <name>` (`src/index.js:834-846`). -/
def chatUse (s : Store) (name : String) : Store :=
  if name = "" then s
  else if (lookupChat s.chats name).isSome then ⟨some name, s.chats⟩
  else s

/-- `/chat delete <name>` (`src/index.js:847-865`).  After deleting the
current chat the code takes `Object.keys(chats)[0] || "default"` — the
first remaining key in insertion order — creates it if absent, and
switches to it. -/
def chatDelete (s : Store) (name : String) : Store :=
  if name = "" then s
  else if (lookupChat s.chats name).isSome then
    let chats := removeChat s.chats name
    if s.current = some name then
      let next := jsOrStr (chatKeys chats).head? "default"
      ⟨some next, ensureChat chats next⟩
    else ⟨s.current, chats⟩
  else s

/-- `/clear` (`src/index.js:804-811`): empties the current chat in place.
In every state the program reaches outside a bad import, the in-memory
`currentChat` equals `historyState.current`, which is how the handler's
`historyState.chats[currentChat] = []` is modelled. -/
def chatClear (s : Store) : Store :=
  match s.current with
  | some c => ⟨s.current, setChat s.chats c []⟩
  | none => s

/-! ## Export and import (`src/index.js:962-990`)

`/export` writes `JSON.stringify(historyState)`; `/import` parses the
file and, if `data.chats` is truthy, installs `data` verbatim as the new
`historyState`.  `JSON.stringify`/`JSON.parse` are host built-ins and are
modelled at the JSON-value level: `encodeStore` is the JSON value the
store serialises to, and `decodeStore` is the typed reading of a parsed
JSON value as a store, including the handler's `data.chats` check.  (A
truthy non-object `chats` field, which the handler would install as
garbage, is modelled as a rejection.) -/

def encOptStr : Option String → Json
  | none => .null
  | some s => .str s

def encodeToolCall (c : ToolCall) : Json :=
  .obj [("id", .str c.id), ("type", .str "function"),
        ("function", .obj [("name", .str c.name), ("arguments", .str c.arguments)])]

def encodeMessage (m : Message) : Json :=
  .obj [("role", .str m.role), ("content", encOptStr m.content),
        ("tool_calls", .arr (m.tool_calls.map encodeToolCall)),
        ("tool_call_id", encOptStr m.tool_call_id)]

def encodeStore (s : Store) : Json :=
  .obj [("current", encOptStr s.current),
        ("chats", .obj (s.chats.map (fun p => (p.1, .arr (p.2.map encodeMessage)))))]

def decOptStr : Json → Option (Option String)
  | .null => some none
  | .str s => some (some s)
  | _ => none

def decodeToolCall : Json → Option ToolCall
  | .obj [("id", .str i), ("type", .str "function"),
          ("function", .obj [("name", .str n), ("arguments", .str a)])] =>
    some ⟨i, n, a⟩
  | _ => none

def decodeToolCallList : List Json → Option (List ToolCall)
  | [] => some []
  | j :: rest =>
    match decodeToolCall j, decodeToolCallList rest with
    | some c, some cs => some (c :: cs)
    | _, _ => none

def decodeMessage : Json → Option Message
  | .obj [("role", .str r), ("content", cj), ("tool_calls", .arr tj),
          ("tool_call_id", ij)] =>
    match decOptStr cj, decodeToolCallList tj, decOptStr ij with
    | some c, some ts, some i => some ⟨r, c, ts, i⟩
    | _, _, _ => none
  | _ => none

def decodeMessageList : List Json → Option (List Message)
  | [] => some []
  | j :: rest =>
    match decodeMessage j, decodeMessageList rest with
    | some m, some ms => some (m :: ms)
    | _, _ => none

def decodeChats : List (String × Json) → Option (List (String × List Message))
  | [] => some []
  | (k, j) :: rest =>
    match j with
    | .arr msgsJ =>
      match decodeMessageList msgsJ, decodeChats rest with
      | some ms, some cs => some ((k, ms) :: cs)
      | _, _ => none
    | _ => none

/-- The `current` field of an imported object: absent or `null` reads as
`none`, a string as itself. -/
def decodeCurrentField : Option Json → Option (Option String)
  | none => some none
  | some j => decOptStr j

/-- Typed reading of a parsed import file, including the handler's
`data.chats` truthiness check (an object field, even `{}`, is truthy; a
missing or null field is not). -/
def decodeStore (j : Json) : Option Store :=
  match j with
  | .obj fields =>
    match fields.lookup "chats" with
    | some (.obj chatFields) =>
      match decodeChats chatFields, decodeCurrentField (fields.lookup "current") with
      | some chats, some cur => some ⟨cur, chats⟩
      | _, _ => none
    | _ => none
  | _ => none

/-- `/import <file>` on an already-parsed JSON value: on a valid shape the
parsed object replaces the store verbatim (`historyState = data`,
`src/index.js:979`); otherwise the store is unchanged. -/
def importOp (s : Store) (j : Json) : Store :=
  match decodeStore j with
  | some imported => imported
  | none => s

/-- The invariant of claim C1, as a computable check: the `current`
pointer names an existing entry of `chats`. -/
def invB (s : Store) : Bool :=
  match s.current with
  | some c => (lookupChat s.chats c).isSome
  | none => false

/-! ## Autopilot (`src/index.js:1429-1448`, second program variant)

`runAutopilot(goal, messages, cfg, force)` loops: send the next prompt,
then (1) stop on the sentinel, (2) stop after one round if autopilot is
neither enabled nor forced, (3) bump `steps` and stop at the budget,
(4) otherwise continue with the synthetic `<AUTO>` prompt.  The replies
of `sendToAssistant` are an oracle indexed by round (0-based), `enabled`
is `cfg.autopilot || force`, and the result is the outcome together with
the number of rounds performed. -/

inductive AutoOutcome where
  | done
  | haltedLimit
  | haltedManual
deriving DecidableEq

/-- `reply.includes(doneTag)`: substring containment. -/
def includesTag (reply tag : String) : Bool :=
  reply.data.tails.any (fun t => List.isPrefixOf tag.data t)

/-- The `while (true)` loop of `runAutopilot`, with the source's `steps`
counter and the current 0-based round index. -/
def runAutopilotLoop (replies : Nat → String) (tag : String)
    (enabled : Bool) (maxSteps : Nat) (steps round : Nat) :
    AutoOutcome × Nat :=
  if includesTag (replies round) tag then (.done, round + 1)
  else if !enabled then (.haltedManual, round + 1)
  else if maxSteps ≤ steps + 1 then (.haltedLimit, round + 1)
  else runAutopilotLoop replies tag enabled maxSteps (steps + 1) (round + 1)
termination_by maxSteps - steps
decreasing_by simp_wf; omega

/-- `runAutopilot`: `cfgSteps` is `cfg.autopilot_steps`, defaulted by
`|| 5` when falsy (0 models a falsy value). -/
def runAutopilot (replies : Nat → String) (tag : String) (enabled : Bool)
    (cfgSteps : Nat) : AutoOutcome × Nat :=
  let maxSteps := if cfgSteps = 0 then 5 else cfgSteps
  runAutopilotLoop replies tag enabled maxSteps 0 0

/-- Index of the first round, among `d` rounds starting at `start`, whose
reply contains the sentinel.  This is the specification-side notion of
"the sentinel first appears in round k's reply". -/
def firstTagIdx (replies : Nat → String) (tag : String) :
    Nat → Nat → Option Nat
  | _, 0 => none
  | start, d + 1 =>
    if includesTag (replies start) tag then some start
    else firstTagIdx replies tag (start + 1) d

/-- The behaviour claimed for the autopilot, written from the spec's
words (with the round bound made explicit): when enabled or forced, the
run succeeds at the first sentinel round within the budget and otherwise
stops at the limit after exactly `budget` rounds; when neither, it
performs exactly one round, succeeding iff that round's reply carries the
sentinel. -/
def autopilotSpec (replies : Nat → String) (tag : String) (enabled : Bool)
    (budget : Nat) : AutoOutcome × Nat :=
  if enabled then
    match firstTagIdx replies tag 0 budget with
    | some k => (.done, k + 1)
    | none => (.haltedLimit, budget)
  else if includesTag (replies 0) tag then (.done, 1)
  else (.haltedManual, 1)

/-! ## Helper lemmas about the session store -/

lemma lookupChat_append_self (l : List (String × List Message)) (k : String)
    (v : List Message) : (lookupChat (l ++ [(k, v)]) k).isSome = true := by
  induction l with
  | nil => simp [lookupChat]
  | cons p rest ih =>
    by_cases h : p.1 = k <;> simp [lookupChat, h, ih]

lemma lookupChat_ensureChat_self (l : List (String × List Message))
    (k : String) : (lookupChat (ensureChat l k) k).isSome = true := by
  unfold ensureChat
  by_cases h : (lookupChat l k).isSome = true
  · simp [h]
  · simp [h, lookupChat_append_self]

lemma lookupChat_removeChat_ne (l : List (String × List Message))
    (name c : String) (h : c ≠ name) :
    lookupChat (removeChat l name) c = lookupChat l c := by
  induction l with
  | nil => rfl
  | cons p rest ih =>
    obtain ⟨a, b⟩ := p
    by_cases hk : a = name
    · have hnc : ¬name = c := fun hcon => h hcon.symm
      simp [removeChat, lookupChat, hk, hnc, ih]
    · by_cases hac : a = c <;> simp [removeChat, lookupChat, hk, hac, h, ih]

lemma lookupChat_setChat_self (l : List (String × List Message))
    (k : String) (v : List Message) :
    (lookupChat (setChat l k v) k).isSome = true := by
  induction l with
  | nil => simp [setChat, lookupChat]
  | cons p rest ih =>
    by_cases h : p.1 = k
    · obtain ⟨a, b⟩ := p
      simp only at h
      simp [setChat, lookupChat, h]
    · obtain ⟨a, b⟩ := p
      simp only at h
      simp [setChat, lookupChat, h, ih]

/-- Claim C1 (amended).  The `current` pointer resolves to an existing
entry of `chats` after a load of any persisted shape (including the
legacy upgrade), and the property is preserved by `/chat new`,
`/chat use`, `/chat delete` (including deletion of the current session)
and `/clear`; `/export` does not modify the store.  `/import`, however,
installs the imported object verbatim, so immediately after an import the
pointer resolves only if the imported blob's own `current` field names an
entry of its `chats` mapping (the separate counterexample exhibits a
violating import). -/
theorem c1_store_invariant :
    (∀ raw, invB (loadHistoryState raw) = true)
    ∧ (∀ s name, invB s = true → invB (chatNew s name) = true)
    ∧ (∀ s name, invB s = true → invB (chatUse s name) = true)
    ∧ (∀ s name, invB s = true → invB (chatDelete s name) = true)
    ∧ (∀ s, invB s = true → invB (chatClear s) = true)
    ∧ (∀ s j imported, decodeStore j = some imported → importOp s j = imported) := by
  refine ⟨?_, ?_, ?_, ?_, ?_, ?_⟩
  · intro raw
    cases raw with
    | fallback => decide
    | legacyArr msgs => simp [loadHistoryState, invB, lookupChat]
    | obj cur chs => simp [loadHistoryState, invB, lookupChat_ensureChat_self]
  · intro s name h
    unfold chatNew
    by_cases hex : (lookupChat s.chats (if name = "" then makeChatName s else name)).isSome = true
    · simpa [hex] using h
    · simp [hex, invB, lookupChat_append_self]
  · intro s name h
    unfold chatUse
    by_cases h0 : name = ""
    · simpa [h0] using h
    · by_cases hex : (lookupChat s.chats name).isSome = true
      · simp [h0, hex, invB]
      · simpa [h0, hex] using h
  · intro s name h
    unfold chatDelete
    by_cases h0 : name = ""
    · simpa [h0] using h
    · by_cases hex : (lookupChat s.chats name).isSome = true
      · by_cases hcur : s.current = some name
        · simp [h0, hex, hcur, invB, lookupChat_ensureChat_self]
        · cases hc : s.current with
          | none => simp [invB, hc] at h
          | some c =>
            have hcn : ¬c = name := fun hcon => hcur (by rw [hc, hcon])
            have h2 : (lookupChat s.chats c).isSome = true := by
              simpa [invB, hc] using h
            simp [h0, hex, hc, hcn, invB,
              lookupChat_removeChat_ne _ _ _ hcn, h2]
      · simpa [h0, hex] using h
  · intro s h
    cases hc : s.current with
    | none => simpa [chatClear, hc] using h
    | some c => simp [chatClear, hc, invB, lookupChat_setChat_self]
  · intro s j imported h
    simp [importOp, h]

/-- Witness for C1: the preservation clauses applied to concrete stores
and operations. -/
theorem c1_store_invariant_witness :
    invB (loadHistoryState (RawHist.obj (some "x") none)) = true
    ∧ invB (chatNew ⟨some "default", [("default", [])]⟩ "work") = true
    ∧ invB (chatUse ⟨some "a", [("a", []), ("b", [])]⟩ "b") = true
    ∧ invB (chatDelete ⟨some "a", [("a", []), ("b", [])]⟩ "a") = true
    ∧ invB (chatClear ⟨some "default", [("default", [])]⟩) = true := by
  refine ⟨c1_store_invariant.1 _, ?_, ?_, ?_, ?_⟩
  · exact c1_store_invariant.2.1 _ "work" (by decide)
  · exact c1_store_invariant.2.2.1 _ "b" (by decide)
  · exact c1_store_invariant.2.2.2.1 _ "a" (by decide)
  · exact c1_store_invariant.2.2.2.2.1 _ (by decide)

/-- Counterexample for C1 as stated: importing `{current: "x", chats:
{default: []}}` (a blob whose `chats` mapping is present, so the handler
accepts it) leaves a store whose `current` pointer names no chat, even
though the store satisfied the invariant before the import. -/
theorem c1_import_counterexample :
    invB ⟨some "default", [("default", [])]⟩ = true
    ∧ invB (importOp ⟨some "default", [("default", [])]⟩
        (Json.obj [("current", Json.str "x"),
                   ("chats", Json.obj [("default", Json.arr [])])])) = false := by
  constructor
  · decide
  · rfl

/-- Claim C6 (amended).  Deleting the current session switches `current`
to `Object.keys(chats)[0] || "default"` — the first *remaining name in
key insertion order*, not the lexicographically-first one — creating
`"default"` when no chat remains, and the resulting pointer always
resolves. -/
theorem c6_delete_switch (s : Store) (name : String) (hname : name ≠ "")
    (hcur : s.current = some name)
    (hmem : (lookupChat s.chats name).isSome = true) :
    (chatDelete s name).current =
      some (jsOrStr (chatKeys (removeChat s.chats name)).head? "default")
    ∧ (removeChat s.chats name = [] →
        (chatDelete s name).chats = [("default", [])])
    ∧ invB (chatDelete s name) = true := by
  refine ⟨?_, ?_, ?_⟩
  · simp [chatDelete, hname, hmem, hcur]
  · intro hempty
    simp [chatDelete, hname, hmem, hcur, hempty, ensureChat, jsOrStr,
      chatKeys, lookupChat]
  · simp [chatDelete, hname, hmem, hcur, invB, lookupChat_ensureChat_self]

/-- Witness for C6: deleting the current chat of a concrete store with
two remaining chats, and of a store with none remaining. -/
theorem c6_delete_switch_witness :
    (chatDelete ⟨some "c", [("c", []), ("b", []), ("a", [])]⟩ "c").current =
      some (jsOrStr (chatKeys (removeChat
        (⟨some "c", [("c", []), ("b", []), ("a", [])]⟩ : Store).chats "c")).head?
        "default")
    ∧ (chatDelete ⟨some "only", [("only", [])]⟩ "only").chats = [("default", [])] := by
  constructor
  · exact (c6_delete_switch ⟨some "c", [("c", []), ("b", []), ("a", [])]⟩ "c"
      (by decide) rfl (by decide)).1
  · exact (c6_delete_switch ⟨some "only", [("only", [])]⟩ "only"
      (by decide) rfl (by decide)).2.1 (by decide)

/-- Counterexample for C6 as stated: with chats inserted in the order
`c, b, a` and `c` current, deleting `c` switches to `b` (insertion
order), while the lexicographically-first remaining name is `a`. -/
theorem c6_delete_not_lexicographic :
    (chatDelete ⟨some "c", [("c", []), ("b", []), ("a", [])]⟩ "c").current = some "b"
    ∧ ((chatKeys (removeChat [("c", ([] : List Message)), ("b", []), ("a", [])] "c")).foldr
        (fun x acc => match acc with
          | none => some x
          | some y => some (if x < y then x else y)) none) = some "a"
    ∧ some "b" ≠ some "a" := by
  refine ⟨rfl, ?_, by decide⟩
  simp [chatKeys, removeChat, List.filter]
  decide

/-! ## The autopilot loop versus its specification -/

/-- Unrolling of the enabled autopilot loop: with `d + 1` permitted
rounds remaining, the run succeeds at the first sentinel round among
them and otherwise halts at the limit after exactly those rounds. -/
lemma runAutopilotLoop_enabled (replies : Nat → String) (tag : String)
    (maxSteps : Nat) :
    ∀ d steps round, steps + d + 1 = maxSteps →
      runAutopilotLoop replies tag true maxSteps steps round =
        match firstTagIdx replies tag round (d + 1) with
        | some k => (AutoOutcome.done, k + 1)
        | none => (AutoOutcome.haltedLimit, round + d + 1) := by
  intro d
  induction d with
  | zero =>
    intro steps round hs
    rw [runAutopilotLoop]
    by_cases htag : includesTag (replies round) tag = true
    · simp [htag, firstTagIdx]
    · have hlim : maxSteps ≤ steps + 1 := by omega
      simp [htag, hlim, firstTagIdx]
  | succ d ih =>
    intro steps round hs
    rw [runAutopilotLoop]
    by_cases htag : includesTag (replies round) tag = true
    · simp [htag, firstTagIdx]
    · have hlim : ¬maxSteps ≤ steps + 1 := by omega
      have ihx := ih (steps + 1) (round + 1) (by omega)
      simp only [htag, hlim, Bool.not_true, if_false, ite_false,
        Bool.false_eq_true]
      rw [ihx]
      have hfi : firstTagIdx replies tag round (d + 1 + 1) =
          firstTagIdx replies tag (round + 1) (d + 1) := by
        rw [firstTagIdx]
        simp [htag]
      rw [hfi]
      cases firstTagIdx replies tag (round + 1) (d + 1) with
      | none => simp; omega
      | some k => simp

/-- Claim C2 (amended).  The autopilot run equals its specification-side
description, with the round bound made explicit: when autopilot is
enabled or forced, the run halts with success at round `k` if and only if
the sentinel first appears in round `k`'s reply *within the step budget*
(`autopilot_steps`, defaulted to 5 when unset), and absent such an
appearance it performs exactly the budget's number of rounds, halting at
the limit; when neither enabled nor forced it performs exactly one round,
halting with success if and only if that round's reply carries the
sentinel.  (The unamended claim fails when the sentinel first appears
after the halt; see the counterexample.) -/
theorem c2_autopilot_rounds (replies : Nat → String) (tag : String)
    (enabled : Bool) (cfgSteps : Nat) :
    runAutopilot replies tag enabled cfgSteps =
      autopilotSpec replies tag enabled (if cfgSteps = 0 then 5 else cfgSteps) := by
  unfold runAutopilot autopilotSpec
  cases enabled with
  | true =>
    obtain ⟨d, hd⟩ : ∃ d, (if cfgSteps = 0 then 5 else cfgSteps) = d + 1 := by
      by_cases h : cfgSteps = 0
      · exact ⟨4, by simp [h]⟩
      · exact ⟨cfgSteps - 1, by simp [h]; omega⟩
    rw [hd, runAutopilotLoop_enabled replies tag (d + 1) d 0 0 (by omega)]
    simp
  | false =>
    rw [runAutopilotLoop]
    by_cases htag : includesTag (replies 0) tag = true
    · simp [htag]
    · simp [htag]

/-- The replies of the counterexample run: the sentinel first appears in
the second round's reply. -/
def c2Replies : Nat → String :=
  fun n => if n = 0 then "working" else "All done [DONE]"

/-- Counterexample for C2 as stated: with autopilot enabled and a step
budget of 1, the sentinel first appears in round 2's reply, yet the run
does not halt with success at round 2 — it halts at the step limit after
round 1 without ever seeing the sentinel. -/
theorem c2_sentinel_after_limit :
    runAutopilot c2Replies "[DONE]" true 1 = (AutoOutcome.haltedLimit, 1)
    ∧ includesTag (c2Replies 1) "[DONE]" = true
    ∧ includesTag (c2Replies 0) "[DONE]" = false := by
  refine ⟨?_, by decide, by decide⟩
  show runAutopilotLoop c2Replies "[DONE]" true 1 0 0 = (AutoOutcome.haltedLimit, 1)
  rw [runAutopilotLoop_enabled c2Replies "[DONE]" 1 0 0 0 (by omega)]
  decide

/-! ## `tool_chain` -/

lemma toolChainLoop_length
    (exec : String → List (String × Json) → String) :
    ∀ (steps : List ChainStep) (start : Nat),
      (toolChainLoop exec steps start).length = steps.length := by
  intro steps
  induction steps with
  | nil => intro start; rfl
  | cons s rest ih => intro start; simp [toolChainLoop, ih]

lemma toolChainLoop_getElem
    (exec : String → List (String × Json) → String) :
    ∀ (steps : List ChainStep) (start i : Nat),
      (toolChainLoop exec steps start)[i]? =
        steps[i]?.map (fun s =>
          ChainEntry.mk (start + i + 1) s.tool (exec s.tool s.args)) := by
  intro steps
  induction steps with
  | nil => intro start i; simp [toolChainLoop]
  | cons s rest ih =>
    intro start i
    cases i with
    | zero => simp [toolChainLoop]
    | succ j =>
      simp only [toolChainLoop, List.getElem?_cons_succ]
      rw [ih (start + 1) j]
      have harith : start + 1 + j + 1 = start + (j + 1) + 1 := by omega
      rw [harith]

/-- Claim C3 (amended).  For every *nonempty* steps list of length N,
`tool_chain` returns one result entry per step, in input order, the
`i`-th entry recording step `i`'s tool name and its result under the
executor; no step result can abort the remaining steps.  (For the empty
list the source returns the error string instead of an empty entry list;
see the counterexample.) -/
theorem c3_tool_chain_entries
    (exec : String → List (String × Json) → String)
    (steps : List ChainStep) (hne : steps ≠ []) :
    toolChain exec steps = ChainOut.ok (toolChainLoop exec steps 0)
    ∧ (toolChainLoop exec steps 0).length = steps.length
    ∧ ∀ i, (toolChainLoop exec steps 0)[i]? =
        steps[i]?.map (fun s => ChainEntry.mk (i + 1) s.tool (exec s.tool s.args)) := by
  refine ⟨?_, toolChainLoop_length exec steps 0, ?_⟩
  · simp [toolChain, hne]
  · intro i
    simpa using toolChainLoop_getElem exec steps 0 i

/-- Witness for C3: a concrete two-step chain in which the first step's
result is an error string and the second step still runs. -/
theorem c3_tool_chain_entries_witness :
    toolChain (fun n _ => if n = "read_file" then "❌ Read error: EACCES" else "ok")
        [⟨"read_file", []⟩, ⟨"list_dir", []⟩] =
      ChainOut.ok [⟨1, "read_file", "❌ Read error: EACCES"⟩, ⟨2, "list_dir", "ok"⟩]
    ∧ (toolChainLoop (fun n _ => if n = "read_file" then "❌ Read error: EACCES" else "ok")
        [⟨"read_file", []⟩, ⟨"list_dir", []⟩] 0).length = 2 := by
  have h := c3_tool_chain_entries
    (fun n _ => if n = "read_file" then "❌ Read error: EACCES" else "ok")
    [⟨"read_file", []⟩, ⟨"list_dir", []⟩] (by simp)
  exact ⟨h.1.trans (by rfl), h.2.1⟩

/-- Counterexample for C3 as stated: the empty steps list yields the
error string, not a list of zero entries. -/
theorem c3_empty_steps :
    toolChain (fun _ _ => "ok") [] = ChainOut.error "❌ Error: steps empty"
    ∧ ChainOut.error "❌ Error: steps empty" ≠ ChainOut.ok [] := by
  exact ⟨rfl, fun hcon => ChainOut.noConfusion hcon⟩

/-! ## The failed-round withdrawal (claim C4)

The catch handler at `src/index.js:1058-1062` runs `messages.pop()` with
the comment "remove failed user message".  When the API call that fails
is the *first* of the turn, the popped message is indeed the user
message and the conversation is exactly restored.  But when a tool round
has already happened, `handleTools` has pushed the assistant
tool-call message and one tool message per call, and the single `pop`
removes the *last tool message* instead, leaving the user message, the
assistant tool-call message and all but one tool message behind —
contradicting both the spec and the code's own comment. -/

/-- The assistant message with one tool call used in the failing run. -/
def c4AsstMsg : Message :=
  { role := "assistant", content := none,
    tool_calls := [⟨"call_1", "run_shell", "\x7b\x7d"⟩], tool_call_id := none }

set_option maxRecDepth 8192 in
/-- Claim C4 evaluated at the failing input.  The first API response
carries a tool call, the second API call throws: the turn ends in the
error path (`false`) with the conversation still holding the user
message and the assistant tool-call message — not restored to the empty
conversation the claim requires.  The conjuncts also record that a
failure on the very first call does restore the conversation, so the
defect is specific to rounds after tool calls. -/
theorem c4_failed_round_after_tools :
    processTurn (fun _ _ => "ok") [some c4AsstMsg, none] [] "hi" =
      some (false, [userMsg "hi", c4AsstMsg])
    ∧ [userMsg "hi", c4AsstMsg] ≠ ([] : List Message)
    ∧ processTurn (fun _ _ => "ok") [none] [] "hi" = some (false, []) := by
  exact ⟨rfl, by simp, rfl⟩

/-! ## The `write_file` confirmation gate (claim C5) -/

lemma str_data_append (a b : String) : (a ++ b).data = a.data ++ b.data := by
  cases a; cases b; rfl

lemma str_length_append (a b : String) :
    (a ++ b).length = a.length + b.length := by
  cases a with
  | mk la =>
    cases b with
    | mk lb =>
      show (la ++ lb).length = la.length + lb.length
      exact List.length_append la lb

lemma identicalPatch_length (f : String) :
    (identicalPatch f).length = 3 * f.length + 94 := by
  unfold identicalPatch
  simp only [str_length_append]
  have h1 : ("Index: " : String).length = 7 := rfl
  have h2 : ("\n" : String).length = 1 := rfl
  have h3 : patchSep.length = 67 := by decide
  have h4 : ("\n--- " : String).length = 5 := rfl
  have h5 : ("\tOld\n+++ " : String).length = 9 := rfl
  have h6 : ("\tNew\n" : String).length = 5 := rfl
  omega

lemma hasNonWs_identicalPatch (f : String) :
    hasNonWs (identicalPatch f) = true := by
  unfold hasNonWs identicalPatch
  simp only [str_data_append, List.any_append]
  have : ((("Index: " : String).data).any (fun c => !(isTrimWs c))) = true := by
    decide
  simp [this]

/-- Claim C5 (amended).  Writing content identical to the existing file
content still raises a write confirmation whenever the resolved path is
longer than two characters, because the header-only patch produced for
identical contents has length `3·|path| + 94 > 100`; only for paths of at
most two characters does the gate skip prompting (and then only when the
file exists — when it does not, a creation prompt is issued, so a
below-threshold diff does not mean "no prompt at all"). -/
theorem c5_write_gate :
    (∀ file fileExists, writeFileIdenticalGate file fileExists =
      if 2 < file.length then WritePrompt.confirmWrite
      else if fileExists then WritePrompt.noPrompt
      else WritePrompt.confirmCreate)
    ∧ (∀ diff, writeFileGate diff false ≠ WritePrompt.noPrompt) := by
  constructor
  · intro file fileExists
    unfold writeFileIdenticalGate writeFileGate
    rw [hasNonWs_identicalPatch, identicalPatch_length]
    by_cases h : 2 < file.length
    · have h2 : 100 < 3 * file.length + 94 := by omega
      simp [h, h2]
    · have h2 : ¬100 < 3 * file.length + 94 := by omega
      cases fileExists <;> simp [h, h2]
  · intro diff
    unfold writeFileGate
    by_cases h : (hasNonWs diff && decide (100 < diff.length)) = true
    · simp [h]
    · simp [h]

set_option maxRecDepth 8192 in
/-- Counterexample for C5 as stated: `write_file` to an existing
`/tmp/notes.txt` with content identical to the file's current content
invokes the write confirmation. -/
theorem c5_identical_content_prompts :
    writeFileIdenticalGate "/tmp/notes.txt" true = WritePrompt.confirmWrite
    ∧ WritePrompt.confirmWrite ≠ WritePrompt.noPrompt := by
  exact ⟨by decide, by decide⟩

/-! ## Malformed tool-call arguments (claim C7) -/

/-- Claim C7.  Argument decoding is total: for any call whose textual
arguments fail to parse, the tool is executed with the empty argument
mapping, and the round is not aborted — `handleTools` still produces the
assistant message plus exactly one tool-result message per call of the
batch. -/
theorem c7_malformed_args (exec : String → List (String × Json) → String)
    (msg : Message) (messages : List Message) (c : ToolCall)
    (hc : c ∈ msg.tool_calls) (hbad : jsonParse c.arguments = none) :
    (handleTools exec msg messages).1.length =
      messages.length + 1 + msg.tool_calls.length
    ∧ (handleTools exec msg messages).2 = true
    ∧ toolResultMsg exec c =
      { role := "tool", content := some (exec c.name []), tool_calls := [],
        tool_call_id := some c.id } := by
  have hne : ¬msg.tool_calls.isEmpty = true := by
    cases h : msg.tool_calls with
    | nil => rw [h] at hc; cases hc
    | cons a l => simp [h]
  refine ⟨?_, ?_, ?_⟩
  · simp [handleTools, hne]
    omega
  · simp [handleTools, hne]
  · simp [toolResultMsg, decodeArgs, hbad]

/-- The malformed call of the C7 witness: its arguments are the one-byte
string holding only an opening curly bracket. -/
def c7Call : ToolCall := ⟨"call_9", "list_dir", "\x7b"⟩

/-- The assistant message carrying the malformed call. -/
def c7Msg : Message :=
  { role := "assistant", content := none, tool_calls := [c7Call],
    tool_call_id := none }

/-- Witness for C7: the malformed arguments string of the concrete call
fails to parse, the batch still completes, and the tool runs on the
empty mapping. -/
theorem c7_malformed_args_witness :
    (handleTools (fun n _ => n) c7Msg []).1.length =
      ([] : List Message).length + 1 + c7Msg.tool_calls.length
    ∧ (handleTools (fun n _ => n) c7Msg []).2 = true
    ∧ toolResultMsg (fun n _ => n) c7Call =
      { role := "tool", content := some ((fun (n : String) (_ : List (String × Json)) => n) c7Call.name []),
        tool_calls := [], tool_call_id := some c7Call.id } := by
  exact c7_malformed_args (fun n _ => n) c7Msg [] c7Call (by simp [c7Msg]) rfl

/-! ## Export/import round trip (claim C8) -/

lemma decodeToolCall_encode (c : ToolCall) :
    decodeToolCall (encodeToolCall c) = some c := by
  cases c; rfl

lemma decodeToolCallList_encode (l : List ToolCall) :
    decodeToolCallList (l.map encodeToolCall) = some l := by
  induction l with
  | nil => rfl
  | cons c rest ih =>
    simp [decodeToolCallList, decodeToolCall_encode, ih]

lemma decOptStr_encode (o : Option String) :
    decOptStr (encOptStr o) = some o := by
  cases o <;> rfl

lemma decodeMessage_encode (m : Message) :
    decodeMessage (encodeMessage m) = some m := by
  obtain ⟨r, c, ts, i⟩ := m
  simp [encodeMessage, decodeMessage, decOptStr_encode, decodeToolCallList_encode]

lemma decodeMessageList_encode (l : List Message) :
    decodeMessageList (l.map encodeMessage) = some l := by
  induction l with
  | nil => rfl
  | cons m rest ih =>
    simp [decodeMessageList, decodeMessage_encode, ih]

lemma decodeChats_encode (l : List (String × List Message)) :
    decodeChats (l.map (fun p => (p.1, Json.arr (p.2.map encodeMessage)))) =
      some l := by
  induction l with
  | nil => rfl
  | cons p rest ih =>
    obtain ⟨k, ms⟩ := p
    simp [decodeChats, decodeMessageList_encode, ih]

lemma decodeCurrentField_encode (cur : Option String) :
    decodeCurrentField (some (encOptStr cur)) = some cur := by
  cases cur <;> rfl

/-- Claim C8.  Exporting a store and importing the exported value
restores a store with an identical `chats` mapping and `current`
pointer: the decode of the encode succeeds with the same store, and
the importing handler installs exactly that store, whatever store it
replaces. -/
theorem c8_export_import_roundtrip (s : Store) (prev : Store) :
    decodeStore (encodeStore s) = some s
    ∧ importOp prev (encodeStore s) = s := by
  obtain ⟨cur, chats⟩ := s
  have hdec : decodeStore (encodeStore ⟨cur, chats⟩) =
      match decodeChats (chats.map (fun p => (p.1, Json.arr (p.2.map encodeMessage)))),
        decodeCurrentField (some (encOptStr cur)) with
      | some cs, some u => some ⟨u, cs⟩
      | _, _ => none := rfl
  have hsome : decodeStore (encodeStore ⟨cur, chats⟩) = some ⟨cur, chats⟩ := by
    rw [hdec, decodeChats_encode, decodeCurrentField_encode]
  exact ⟨hsome, by simp [importOp, hsome]⟩

/-! ## `proxy_`-prefixed tool names (claim C9) -/

/-- Claim C9 (amended).  For each name in the tool registry, the
`proxy_`-prefixed form dispatches to exactly the handler of the bare
name, and such names never reach the unknown-tool arm.  (An *unknown*
suffix still reaches the unknown-tool arm — and with the original,
still-prefixed name in the report — so the unrestricted claim fails; see
the counterexample.) -/
theorem c9_proxy_dispatch (name : String) (h : name ∈ knownTools) :
    executeToolDispatch ("proxy_" ++ name) = executeToolDispatch name
    ∧ ∀ raw, executeToolDispatch ("proxy_" ++ name) ≠ ToolHandler.unknownH raw := by
  fin_cases h <;>
    exact ⟨by decide, fun raw hcon => ToolHandler.noConfusion hcon⟩

/-- Witness for C9: the registry name `run_shell`. -/
theorem c9_proxy_dispatch_witness :
    executeToolDispatch ("proxy_" ++ "run_shell") = executeToolDispatch "run_shell"
    ∧ executeToolDispatch ("proxy_" ++ "run_shell") ≠
        ToolHandler.unknownH "proxy_run_shell" := by
  have h := c9_proxy_dispatch "run_shell" (by simp [knownTools])
  exact ⟨h.1, h.2 "proxy_run_shell"⟩

/-- Counterexample for C9 as stated: `proxy_frobnicate` hits the
unknown-tool fallback, and it does not even yield the same result the
bare name would, because the fallback reports the original, prefixed
name. -/
theorem c9_proxy_unknown_fallback :
    executeToolDispatch "proxy_frobnicate" = ToolHandler.unknownH "proxy_frobnicate"
    ∧ executeToolDispatch "frobnicate" = ToolHandler.unknownH "frobnicate"
    ∧ ToolHandler.unknownH "proxy_frobnicate" ≠ ToolHandler.unknownH "frobnicate" := by
  exact ⟨by decide, by decide, by decide⟩

/-! ## `read_file` totality and truncation (claim C10) -/

/-- Claim C10.  `read_file` is total over the filesystem outcomes: a
missing file and a read error yield diagnostic strings rather than an
exception; content of at most 50000 characters is returned unchanged;
longer content is returned as exactly its first 50000 characters
followed by the truncation marker reporting the original length. -/
theorem c10_read_file_bounded (data p e : String) :
    ((data.length ≤ 50000 ∧ readFile (.content data) = data)
      ∨ (50000 < data.length ∧ readFile (.content data) =
          data.take 50000 ++ "\n...[TRUNCATED: " ++ toString data.length ++
            " bytes]..."))
    ∧ readFile (.notFound p) = "❌ File not found: " ++ p
    ∧ readFile (.readError e) = "❌ Read error: " ++ e := by
  refine ⟨?_, rfl, rfl⟩
  by_cases h : 50000 < data.length
  · exact Or.inr ⟨h, by simp [readFile, h]⟩
  · exact Or.inl ⟨by omega, by simp [readFile, h]⟩

end Meow
